import Mathlib

/-
Verification development for the audius-reward-manager repository.

Shallow embedding conventions:
  - byte strings are `List Nat` (each entry morally < 256);
  - Solana public keys are `Nat` (opaque identifiers compared for equality);
  - ethereum addresses (`[u8; 20]`) are `List Nat` of length 20;
  - the u64 `amount` is a `Nat`, serialized through an explicit
    little-endian byte encoding mirroring `u64::to_le_bytes`;
  - a secp256k1 instruction is represented by its `data` byte vector,
    the only field the verifier reads;
  - fallible Rust code returning `Result` becomes `Except`;
  - `BTreeMap<EthereumAddress, bool>` becomes an association list with
    overwrite-on-insert semantics, `BTreeSet<EthereumAddress>` becomes a
    duplicate-free `List` queried by membership (the programs only ever
    test membership and insert, so ordering is irrelevant).
-/

instance {ε α : Type} [DecidableEq ε] [DecidableEq α] : DecidableEq (Except ε α) := fun
  | .ok a, .ok b => decidable_of_iff (a = b) (by simp)
  | .ok _, .error _ => .isFalse (by simp)
  | .error _, .ok _ => .isFalse (by simp)
  | .error e, .error f => decidable_of_iff (e = f) (by simp)

/-- Errors of `program/src/error.rs` (`AudiusProgramError`), with the
spelling of the source. -/
inductive AudiusProgramError where
  | SignCollission
  | WrongSigner
  | IncorectSenderAccount
  | IncorectManagerAccount
  | WrongRewardManagerKey
  | WrongRecipientKey
  | NotEnoughSigners
  | Secp256InstructionMissing
  | InstructionLoadError
  | RepeatedSenders
  | SignatureVerificationFailed
  | OperatorCollision
deriving DecidableEq, Repr

/-- The subset of `solana_program::program_error::ProgramError` variants the
program-crate helpers return, plus the custom errors. -/
inductive ProgramError where
  | IncorrectProgramId
  | UninitializedAccount
  | InvalidSeeds
  | Custom (e : AudiusProgramError)
deriving DecidableEq, Repr

/-- `pub type EthereumAddress = [u8; 20]` from `program/src/utils.rs`;
embedded as a byte list (theorems carry length-20 hypotheses where the
fixed width matters). -/
abbrev EthereumAddress := List Nat

/-- Modelled from the spec: the `SenderAccount` record of the program
crate (its `state.rs` is not in the sources). Section 3 of the spec gives
a Sender an attester identity, an operator identity and a lifecycle flag;
`utils.rs` reads exactly `is_initialized()`, `.eth_address` and
`.operator`, which are the fields kept here. -/
structure SenderAccount where
  is_init : Bool
  eth_address : EthereumAddress
  operator : EthereumAddress
deriving DecidableEq, Repr

/-- Modelled from the spec: the `Transfer` instruction payload of the
program crate (its `instruction.rs` is not in the sources). Section 3 of
the spec: a transfer intent is a recipient identity, an unsigned 64-bit
amount and an id string; `utils.rs` reads exactly `.eth_recipient`,
`.amount` and `.id`. -/
structure Transfer where
  eth_recipient : EthereumAddress
  amount : Nat
  id : List Nat
deriving DecidableEq, Repr

/-- `u64::to_le_bytes`: the eight little-endian bytes of `amount`. -/
def u64_to_le_bytes (n : Nat) : List Nat :=
  (List.range 8).map fun i => n / 256 ^ i % 256

/-- `get_signer_from_secp_instruction`: bytes [12, 32) of the instruction
data are the recovered 20-byte identity (`eth_address_offset = 12`).
`List.drop`/`List.take` are total, so this matches the Rust slice only on
data at least 32 bytes long; the bounds-checked variant below
(`get_signer_checked`) models the partiality. -/
def get_signer_from_secp_instruction (secp_instruction_data : List Nat) : EthereumAddress :=
  (secp_instruction_data.drop 12).take 20

/-- The signed payload of a secp256k1 instruction: bytes [97, ...) of the
data (`message_data_offset = 97`, i.e. 12 meta + 20 address + 65
signature). Total here; `message_checked` below models the partiality. -/
def instruction_message (secp_instruction_data : List Nat) : List Nat :=
  secp_instruction_data.drop 97

/-- `validate_eth_signature`: the payload at offset 97 must equal the
expected message byte-for-byte, otherwise `SignatureVerificationFailed`. -/
def validate_eth_signature (expected_message : List Nat)
    (secp_instruction_data : List Nat) : Except AudiusProgramError Unit :=
  if instruction_message secp_instruction_data ≠ expected_message then
    .error .SignatureVerificationFailed
  else .ok ()

/-- Bounds-checked identity extraction: defined exactly when the Rust
slice `data[12..32]` is in bounds. Out of bounds, the Rust code panics
rather than returning a typed error; `none` marks that case. -/
def get_signer_checked (secp_instruction_data : List Nat) : Option EthereumAddress :=
  if 12 + 20 ≤ secp_instruction_data.length then
    some ((secp_instruction_data.drop 12).take 20)
  else none

/-- Bounds-checked payload extraction: defined exactly when the Rust
slice `data[97..]` is in bounds; `none` marks the panic case. -/
def message_checked (secp_instruction_data : List Nat) : Option (List Nat) :=
  if 97 ≤ secp_instruction_data.length then
    some (secp_instruction_data.drop 97)
  else none

/-- `BTreeMap<EthereumAddress, bool>` as an association list. -/
abbrev Checkmap := List (EthereumAddress × Bool)

/-- `BTreeMap::get`. -/
def cmLookup : Checkmap → EthereumAddress → Option Bool
  | [], _ => none
  | (k, v) :: rest, key => if k = key then some v else cmLookup rest key

/-- `BTreeMap::insert`: overwrite an existing binding or append a new one. -/
def mapInsert : Checkmap → EthereumAddress → Bool → Checkmap
  | [], key, b => [(key, b)]
  | (k, v) :: rest, key, b =>
    if k = key then (key, b) :: rest else (k, v) :: mapInsert rest key b

/-- Write through `BTreeMap::get_mut`: update the binding of an existing
key, leave the map unchanged when the key is absent (as `get_mut` then
yields nothing to write through). -/
def cmSet : Checkmap → EthereumAddress → Bool → Checkmap
  | [], _, _ => []
  | (k, v) :: rest, key, b =>
    if k = key then (key, b) :: rest else (k, v) :: cmSet rest key b

/-- `vec_into_checkmap`: every listed identity is mapped to `false`. -/
def vec_into_checkmap (vec : List EthereumAddress) : Checkmap :=
  vec.foldl (fun map item => mapInsert map item false) []

/-- `check_signer`: an identity absent from the checkmap is a
`WrongSigner`; one already marked is a `SignCollission`; otherwise it is
marked signed. -/
def check_signer (checkmap : Checkmap) (eth_signer : EthereumAddress) :
    Except AudiusProgramError Checkmap :=
  match cmLookup checkmap eth_signer with
  | some val =>
    if ¬ val then .ok (cmSet checkmap eth_signer true)
    else .error .SignCollission
  | none => .error .WrongSigner

/-- The message signed by the bot oracle:
`recipient || byte of carriage 95 || amount le bytes || 95 || id`
(95 is the `_` byte). -/
def bot_oracle_message (transfer_data : Transfer) : List Nat :=
  transfer_data.eth_recipient ++ [95] ++ u64_to_le_bytes transfer_data.amount
    ++ [95] ++ transfer_data.id

/-- The message signed by ordinary senders: the bot-oracle string followed
by `95` and the oracle identity. -/
def senders_message (transfer_data : Transfer) (bot_oracle_eth : EthereumAddress) : List Nat :=
  transfer_data.eth_recipient ++ [95] ++ u64_to_le_bytes transfer_data.amount
    ++ [95] ++ transfer_data.id ++ [95] ++ bot_oracle_eth

/-- The mutable state of the transfer-verification loop of
`build_verify_secp_transfer`: the success counter, the checkmap and the
operator collision set. -/
structure TransferState where
  successful_verifications : Nat
  checkmap : Checkmap
  operators : List EthereumAddress
deriving DecidableEq, Repr

/-- One iteration of the loop of `build_verify_secp_transfer`: the oracle
branch (payload must equal the bot-oracle message, then the oracle
operator is inserted into the collision set), then the sender branch
(`check_signer`, then the payload must equal the senders message). The
two branches are sequential `if`s in the source, not an `else` chain. -/
def verify_transfer_step (bot_oracle : SenderAccount) (oracle_msg snd_msg : List Nat)
    (signers : List EthereumAddress) (st : TransferState) (data : List Nat) :
    Except AudiusProgramError TransferState :=
  let eth_signer := get_signer_from_secp_instruction data
  let afterOracle : Except AudiusProgramError TransferState :=
    if eth_signer = bot_oracle.eth_address then
      match validate_eth_signature oracle_msg data with
      | .error e => .error e
      | .ok _ =>
        if bot_oracle.operator ∈ st.operators then
          .error .OperatorCollision
        else
          .ok { st with
                operators := st.operators ++ [bot_oracle.operator],
                successful_verifications := st.successful_verifications + 1 }
    else .ok st
  match afterOracle with
  | .error e => .error e
  | .ok st1 =>
    if eth_signer ∈ signers then
      match check_signer st1.checkmap eth_signer with
      | .error e => .error e
      | .ok cm =>
        match validate_eth_signature snd_msg data with
        | .error e => .error e
        | .ok _ =>
          .ok { st1 with
                checkmap := cm,
                successful_verifications := st1.successful_verifications + 1 }
    else .ok st1

/-- The `for instruction in instructions` loop of
`build_verify_secp_transfer`, with early return on error. -/
def verify_transfer_loop (bot_oracle : SenderAccount) (oracle_msg snd_msg : List Nat)
    (signers : List EthereumAddress) :
    TransferState → List (List Nat) → Except AudiusProgramError TransferState
  | st, [] => .ok st
  | st, data :: rest =>
    match verify_transfer_step bot_oracle oracle_msg snd_msg signers st data with
    | .error e => .error e
    | .ok st1 => verify_transfer_loop bot_oracle oracle_msg snd_msg signers st1 rest

/-- `build_verify_secp_transfer`: run the loop from a fresh checkmap, a
zero counter and the seeded operator set, then require exactly
`signers.length + 1` successful verifications (the +1 is the bot
oracle). -/
def build_verify_secp_transfer (bot_oracle : SenderAccount) (transfer_data : Transfer)
    (instructions : List (List Nat)) (signers : List EthereumAddress)
    (operators : List EthereumAddress) : Except AudiusProgramError Unit :=
  match verify_transfer_loop bot_oracle (bot_oracle_message transfer_data)
      (senders_message transfer_data bot_oracle.eth_address) signers
      ⟨0, vec_into_checkmap signers, operators⟩ instructions with
  | .error e => .error e
  | .ok fin =>
    if fin.successful_verifications ≠ signers.length + 1 then
      .error .SignatureVerificationFailed
    else .ok ()

/-- The loop of `build_verify_secp_add_sender`: every instruction must
pass `check_signer` against the declared signers and carry exactly the
expected mutation message. -/
def verify_add_sender_loop (expected_message : List Nat) :
    Checkmap → List (List Nat) → Except AudiusProgramError Checkmap
  | checkmap, [] => .ok checkmap
  | checkmap, data :: rest =>
    let eth_signer := get_signer_from_secp_instruction data
    match check_signer checkmap eth_signer with
    | .error e => .error e
    | .ok cm =>
      match validate_eth_signature expected_message data with
      | .error e => .error e
      | .ok _ => verify_add_sender_loop expected_message cm rest

/-- `build_verify_secp_add_sender`: the expected message is
`reward_manager_key || new_sender`; the unused operator-set argument is
kept for signature fidelity (the closure binds it as `_operators`). -/
def build_verify_secp_add_sender (reward_manager_key : List Nat)
    (new_sender : EthereumAddress) (instructions : List (List Nat))
    (signers : List EthereumAddress) (_operators : List EthereumAddress) :
    Except AudiusProgramError Unit :=
  match verify_add_sender_loop (reward_manager_key ++ new_sender)
      (vec_into_checkmap signers) instructions with
  | .error e => .error e
  | .ok _ => .ok ()

/-- The slice of `solana_program::account_info::AccountInfo` that
`get_eth_addresses` reads for each sender account: the account key, the
owner program and the deserialized `SenderAccount` data (borsh
deserialization of the raw bytes is external and abstracted away). -/
structure AccountInfo where
  key : Nat
  owner : Nat
  data : SenderAccount
deriving DecidableEq, Repr

/-- The loop of `get_eth_addresses`, carrying the accumulated address
list and operator set. Order of checks as in the source: initialization,
ownership, derived-address match, `RepeatedSenders`, `OperatorCollision`.
The program-derived address (`get_address_pair`, a SHA-256 based PDA) is
the external deterministic-derivation facility, passed in as the function
`derive` from the sender ethereum address. -/
def get_eth_addresses_loop (program_id : Nat) (derive : EthereumAddress → Nat) :
    List EthereumAddress → List EthereumAddress → List AccountInfo →
    Except ProgramError (List EthereumAddress × List EthereumAddress)
  | senders_eth_addresses, operators, [] => .ok (senders_eth_addresses, operators)
  | senders_eth_addresses, operators, signer :: rest =>
    if ¬ signer.data.is_init then .error .UninitializedAccount
    else if signer.owner ≠ program_id then .error .IncorrectProgramId
    else if derive signer.data.eth_address ≠ signer.key then .error .InvalidSeeds
    else if signer.data.eth_address ∈ senders_eth_addresses then
      .error (.Custom .RepeatedSenders)
    else if signer.data.operator ∈ operators then
      .error (.Custom .OperatorCollision)
    else
      get_eth_addresses_loop program_id derive
        (senders_eth_addresses ++ [signer.data.eth_address])
        (operators ++ [signer.data.operator]) rest

/-- `get_eth_addresses`: assemble the expected sender identities and the
seed operator collision set from the supplied sender accounts. -/
def get_eth_addresses (program_id : Nat) (derive : EthereumAddress → Nat)
    (signers : List AccountInfo) :
    Except ProgramError (List EthereumAddress × List EthereumAddress) :=
  get_eth_addresses_loop program_id derive [] [] signers

namespace Src

/-- Errors of the simpler reward crate (`src/src`), with the spelling of
the source (`AudiusRewardError`). -/
inductive AudiusRewardError where
  | IncorectSenderAccount
  | IncorectManagerAccount
  | IncorectRewardManager
deriving DecidableEq, Repr

/-- The `ProgramError` variants `src/src/processor.rs` returns, plus the
crate-custom errors. -/
inductive SrcProgramError where
  | UninitializedAccount
  | AccountAlreadyInit
  | InvalidAccountData
  | Custom (e : AudiusRewardError)
deriving DecidableEq, Repr

/-- Modelled from the spec: the `RewardManager` registry record of the
simpler reward crate (its `state.rs` is not in the sources). Section 3:
a manager authority, a token custody reference, the quorum parameter,
and an initialization flag read by `is_initialized`;
`RewardManager::new(token_account, manager, min_votes)` fills the three
data fields of an initialized record. -/
structure RewardManager where
  is_init : Bool
  token_account : Nat
  manager : Nat
  min_votes : Nat
deriving DecidableEq, Repr

/-- Modelled from the spec: the `SenderAccount` record of the simpler
reward crate (its `state.rs` is not in the sources). Section 3: an
owning-registry back-reference (`reward_manager`, the field
`process_delete_sender` reads back) and the attester identity; the
constructor `SenderAccount::new` fills them positionally in that order,
as `process_delete_sender` compares its first field against the registry
key. -/
structure SenderAccount where
  reward_manager : Nat
  eth_address : EthereumAddress
deriving DecidableEq, Repr

/-- `SenderAccount::new`. -/
def SenderAccount.new (reward_manager : Nat) (eth_address : EthereumAddress) :
    SenderAccount :=
  { reward_manager := reward_manager, eth_address := eth_address }

/-- `Processor::transfer_all`: `**to += **from; **from = 0;` on u64
lamport balances. Returns (new source balance, new receiver balance);
the addition is the u64 machine addition, hence the explicit wraparound. -/
def transfer_all (source_lamports receiver_lamports : Nat) : Nat × Nat :=
  (0, (receiver_lamports + source_lamports) % 2 ^ 64)

/-- `Processor::process_create_sender`: require an initialized registry,
the caller to be the registry manager, and the supplied sender account
key to equal the deterministic derivation (`get_address_pair` over the
ethereum address, abstracted as `derive`); then persist
`SenderAccount::new(*manager_account_info.key, eth_address)`. The
account-creation system call between the checks and the write is host
plumbing and not modelled. -/
def process_create_sender (derive : EthereumAddress → Nat)
    (eth_address : EthereumAddress) (_reward_manager_key : Nat)
    (reward_manager : RewardManager) (manager_account_key : Nat)
    (sender_key : Nat) : Except SrcProgramError SenderAccount :=
  if ¬ reward_manager.is_init then .error .UninitializedAccount
  else if reward_manager.manager ≠ manager_account_key then
    .error (.Custom .IncorectManagerAccount)
  else if sender_key ≠ derive eth_address then
    .error (.Custom .IncorectSenderAccount)
  else .ok (SenderAccount.new manager_account_key eth_address)

/-- `Processor::process_delete_sender`: the stored back-reference of the
sender must equal the registry key, the caller must be the registry
manager, then the full balance of the sender account is swept to the
refunder. Returns the (sender, refunder) lamport balances after the
sweep. -/
def process_delete_sender (reward_manager_key : Nat)
    (reward_manager : RewardManager) (manager_account_key : Nat)
    (sender : SenderAccount) (sender_lamports refunder_lamports : Nat) :
    Except SrcProgramError (Nat × Nat) :=
  if sender.reward_manager ≠ reward_manager_key then
    .error (.Custom .IncorectRewardManager)
  else if reward_manager.manager ≠ manager_account_key then
    .error (.Custom .IncorectManagerAccount)
  else .ok (transfer_all sender_lamports refunder_lamports)

end Src

/-- The byte layout produced by the secp256k1-program builder
(`new_secp256k1_instruction_2_0`): 12 bytes of offsets metadata, the
20-byte recovered address, the 65-byte signature, then the signed
message. Used to build concrete instruction data in theorems. -/
def secp_data (eth_address : EthereumAddress) (message : List Nat) : List Nat :=
  List.replicate 12 0 ++ eth_address ++ List.replicate 65 0 ++ message

def exOracleEth : EthereumAddress := List.replicate 20 1
def exOracleOp : EthereumAddress := List.replicate 20 2
def exBot : SenderAccount := ⟨true, exOracleEth, exOracleOp⟩
def exTransfer : Transfer := ⟨List.replicate 20 7, 10000, [97, 98, 99, 49, 50, 51]⟩
def exSenderA : EthereumAddress := List.replicate 20 3
def exSenderB : EthereumAddress := List.replicate 20 4

/-- Monotone growth relation between loop states: marked identities stay
marked, the checkmap key set is unchanged, the operator set only grows. -/
def StateLe (s t : TransferState) : Prop :=
  (∀ a, cmLookup s.checkmap a = some true → cmLookup t.checkmap a = some true) ∧
  (∀ a, cmLookup s.checkmap a = none ↔ cmLookup t.checkmap a = none) ∧
  (∀ o, o ∈ s.operators → o ∈ t.operators)

/-- Outcome agreement for loop results: identical final states on
success, any pair of errors on failure. -/
def resultAgrees (a b : Except AudiusProgramError TransferState) : Prop :=
  match a, b with
  | .ok s, .ok t => s = t
  | .error _, .error _ => True
  | _, _ => False

/-- Continue the transfer loop after an already-computed prefix result. -/
def bindLoop (bot : SenderAccount) (om sm : List Nat)
    (signers : List EthereumAddress)
    (r : Except AudiusProgramError TransferState) (l : List (List Nat)) :
    Except AudiusProgramError TransferState :=
  match r with
  | .error e => .error e
  | .ok s => verify_transfer_loop bot om sm signers s l

theorem cmLookup_mapInsert (m : Checkmap) (k : EthereumAddress) (b : Bool)
    (a : EthereumAddress) :
    cmLookup (mapInsert m k b) a = if k = a then some b else cmLookup m a := by
  induction m with
  | nil => simp [mapInsert, cmLookup]
  | cons kv rest ih =>
    obtain ⟨k0, v0⟩ := kv
    by_cases hk : k0 = k
    · subst hk
      by_cases ha : k0 = a
      · simp [mapInsert, cmLookup, ha]
      · simp [mapInsert, cmLookup, ha]
    · by_cases ha : k0 = a
      · subst ha
        have hka : k ≠ k0 := fun h => hk h.symm
        simp [mapInsert, if_neg hk, cmLookup, if_neg hka]
      · simp [mapInsert, if_neg hk, cmLookup, if_neg ha, ih]

theorem cmLookup_foldl_ins (l : List EthereumAddress) (m : Checkmap)
    (a : EthereumAddress) :
    cmLookup (l.foldl (fun map item => mapInsert map item false) m) a =
      if a ∈ l then some false else cmLookup m a := by
  induction l generalizing m with
  | nil => simp
  | cons x xs ih =>
    simp only [List.foldl_cons]
    rw [ih, cmLookup_mapInsert]
    by_cases hx : a ∈ xs
    · simp [hx]
    · by_cases hax : x = a
      · simp [hx, hax]
      · have hax2 : ¬ a = x := fun h => hax h.symm
        simp [hx, hax, hax2]

theorem cmLookup_vec_into_checkmap (l : List EthereumAddress) (a : EthereumAddress) :
    cmLookup (vec_into_checkmap l) a = if a ∈ l then some false else none := by
  simpa [vec_into_checkmap] using cmLookup_foldl_ins l [] a

theorem cmSet_of_none (m : Checkmap) (k : EthereumAddress) (b : Bool)
    (h : cmLookup m k = none) : cmSet m k b = m := by
  induction m with
  | nil => rfl
  | cons kv rest ih =>
    obtain ⟨k0, v0⟩ := kv
    by_cases hk : k0 = k
    · simp [cmLookup, hk] at h
    · simp only [cmLookup, if_neg hk] at h
      simp [cmSet, if_neg hk, ih h]

theorem cmLookup_cmSet_self (m : Checkmap) (k : EthereumAddress) (b : Bool)
    (h : (cmLookup m k).isSome) : cmLookup (cmSet m k b) k = some b := by
  induction m with
  | nil => simp [cmLookup] at h
  | cons kv rest ih =>
    obtain ⟨k0, v0⟩ := kv
    by_cases hk : k0 = k
    · simp [cmSet, hk, cmLookup]
    · simp only [cmLookup, if_neg hk] at h
      simp [cmSet, if_neg hk, cmLookup, if_neg hk, ih h]

theorem cmLookup_cmSet_ne (m : Checkmap) (k : EthereumAddress) (b : Bool)
    (a : EthereumAddress) (h : k ≠ a) : cmLookup (cmSet m k b) a = cmLookup m a := by
  induction m with
  | nil => rfl
  | cons kv rest ih =>
    obtain ⟨k0, v0⟩ := kv
    by_cases hk : k0 = k
    · subst hk
      simp [cmSet, cmLookup, if_neg h, ih]
    · simp [cmSet, if_neg hk, cmLookup, ih]

theorem cmLookup_cmSet_none (m : Checkmap) (k : EthereumAddress) (b : Bool)
    (a : EthereumAddress) (h : cmLookup m a = none) :
    cmLookup (cmSet m k b) a = none := by
  by_cases hk : k = a
  · subst hk
    rw [cmSet_of_none m k b h, h]
  · rw [cmLookup_cmSet_ne m k b a hk, h]

theorem length_senders_message (t : Transfer) (o : EthereumAddress) :
    (senders_message t o).length = (bot_oracle_message t).length + 1 + o.length := by
  simp [senders_message, bot_oracle_message]
  omega

theorem bot_oracle_message_ne_senders_message (t : Transfer) (o : EthereumAddress) :
    bot_oracle_message t ≠ senders_message t o := by
  intro h
  have := congrArg List.length h
  rw [length_senders_message] at this
  omega

theorem get_signer_secp_data (e : EthereumAddress) (m : List Nat)
    (h : e.length = 20) :
    get_signer_from_secp_instruction (secp_data e m) = e := by
  unfold get_signer_from_secp_instruction secp_data
  rw [show List.replicate 12 (0:Nat) ++ e ++ List.replicate 65 0 ++ m =
      List.replicate 12 (0:Nat) ++ (e ++ (List.replicate 65 0 ++ m)) by
    simp [List.append_assoc]]
  rw [List.drop_left' (by simp), List.take_left' h]

theorem instruction_message_secp_data (e : EthereumAddress) (m : List Nat)
    (h : e.length = 20) :
    instruction_message (secp_data e m) = m := by
  unfold instruction_message secp_data
  rw [show List.replicate 12 (0:Nat) ++ e ++ List.replicate 65 0 ++ m =
      (List.replicate 12 (0:Nat) ++ e ++ List.replicate 65 0) ++ m by
    simp [List.append_assoc]]
  rw [List.drop_left' (by simp [h])]

theorem verify_transfer_loop_append (bot : SenderAccount) (om sm : List Nat)
    (signers : List EthereumAddress) (st : TransferState) (xs ys : List (List Nat)) :
    verify_transfer_loop bot om sm signers st (xs ++ ys) =
      match verify_transfer_loop bot om sm signers st xs with
      | .error e => .error e
      | .ok st1 => verify_transfer_loop bot om sm signers st1 ys := by
  induction xs generalizing st with
  | nil => simp [verify_transfer_loop]
  | cons d ds ih =>
    simp only [List.cons_append, verify_transfer_loop]
    cases verify_transfer_step bot om sm signers st d with
    | error e => rfl
    | ok st1 => exact ih st1

theorem verify_add_sender_loop_append (exp : List Nat) (cm : Checkmap)
    (xs ys : List (List Nat)) :
    verify_add_sender_loop exp cm (xs ++ ys) =
      match verify_add_sender_loop exp cm xs with
      | .error e => .error e
      | .ok cm1 => verify_add_sender_loop exp cm1 ys := by
  induction xs generalizing cm with
  | nil => simp [verify_add_sender_loop]
  | cons d ds ih =>
    simp only [List.cons_append, verify_add_sender_loop]
    cases check_signer cm (get_signer_from_secp_instruction d) with
    | error e => rfl
    | ok cm1 =>
      simp only []
      cases validate_eth_signature exp d with
      | error e => rfl
      | ok _ => exact ih cm1

theorem step_ignore (bot : SenderAccount) (om sm : List Nat)
    (signers : List EthereumAddress) (st : TransferState) (d : List Nat)
    (h1 : get_signer_from_secp_instruction d ≠ bot.eth_address)
    (h2 : get_signer_from_secp_instruction d ∉ signers) :
    verify_transfer_step bot om sm signers st d = .ok st := by
  simp [verify_transfer_step, h1, h2]

theorem step_oracle_bad_msg (bot : SenderAccount) (om sm : List Nat)
    (signers : List EthereumAddress) (st : TransferState) (d : List Nat)
    (hA : get_signer_from_secp_instruction d = bot.eth_address)
    (hm : instruction_message d ≠ om) :
    verify_transfer_step bot om sm signers st d = .error .SignatureVerificationFailed := by
  simp [verify_transfer_step, hA, validate_eth_signature, hm]

theorem step_oracle_op_coll (bot : SenderAccount) (om sm : List Nat)
    (signers : List EthereumAddress) (st : TransferState) (d : List Nat)
    (hA : get_signer_from_secp_instruction d = bot.eth_address)
    (hm : instruction_message d = om)
    (hop : bot.operator ∈ st.operators) :
    verify_transfer_step bot om sm signers st d = .error .OperatorCollision := by
  simp [verify_transfer_step, hA, validate_eth_signature, hm, hop]

theorem step_oracle_ok (bot : SenderAccount) (om sm : List Nat)
    (signers : List EthereumAddress) (st : TransferState) (d : List Nat)
    (hA : get_signer_from_secp_instruction d = bot.eth_address)
    (hB : get_signer_from_secp_instruction d ∉ signers)
    (hm : instruction_message d = om)
    (hop : bot.operator ∉ st.operators) :
    verify_transfer_step bot om sm signers st d =
      .ok ⟨st.successful_verifications + 1, st.checkmap,
           st.operators ++ [bot.operator]⟩ := by
  have hB2 : bot.eth_address ∉ signers := hA ▸ hB
  simp [verify_transfer_step, hA, hB2, validate_eth_signature, hm, hop]

theorem step_sender_collision (bot : SenderAccount) (om sm : List Nat)
    (signers : List EthereumAddress) (st : TransferState) (d : List Nat)
    (hA : get_signer_from_secp_instruction d ≠ bot.eth_address)
    (hB : get_signer_from_secp_instruction d ∈ signers)
    (hl : cmLookup st.checkmap (get_signer_from_secp_instruction d) = some true) :
    verify_transfer_step bot om sm signers st d = .error .SignCollission := by
  simp [verify_transfer_step, hA, hB, check_signer, hl]

theorem step_sender_wrong (bot : SenderAccount) (om sm : List Nat)
    (signers : List EthereumAddress) (st : TransferState) (d : List Nat)
    (hA : get_signer_from_secp_instruction d ≠ bot.eth_address)
    (hB : get_signer_from_secp_instruction d ∈ signers)
    (hl : cmLookup st.checkmap (get_signer_from_secp_instruction d) = none) :
    verify_transfer_step bot om sm signers st d = .error .WrongSigner := by
  simp [verify_transfer_step, hA, hB, check_signer, hl]

theorem step_sender_bad_msg (bot : SenderAccount) (om sm : List Nat)
    (signers : List EthereumAddress) (st : TransferState) (d : List Nat)
    (hA : get_signer_from_secp_instruction d ≠ bot.eth_address)
    (hB : get_signer_from_secp_instruction d ∈ signers)
    (hl : cmLookup st.checkmap (get_signer_from_secp_instruction d) = some false)
    (hm : instruction_message d ≠ sm) :
    verify_transfer_step bot om sm signers st d = .error .SignatureVerificationFailed := by
  simp [verify_transfer_step, hA, hB, check_signer, hl, validate_eth_signature, hm]

theorem step_sender_ok (bot : SenderAccount) (om sm : List Nat)
    (signers : List EthereumAddress) (st : TransferState) (d : List Nat)
    (hA : get_signer_from_secp_instruction d ≠ bot.eth_address)
    (hB : get_signer_from_secp_instruction d ∈ signers)
    (hl : cmLookup st.checkmap (get_signer_from_secp_instruction d) = some false)
    (hm : instruction_message d = sm) :
    verify_transfer_step bot om sm signers st d =
      .ok ⟨st.successful_verifications + 1,
           cmSet st.checkmap (get_signer_from_secp_instruction d) true,
           st.operators⟩ := by
  simp [verify_transfer_step, hA, hB, check_signer, hl, validate_eth_signature, hm]

theorem step_oracle_and_sender_not_ok (bot : SenderAccount) (om sm : List Nat)
    (signers : List EthereumAddress) (st : TransferState) (d : List Nat)
    (hne : om ≠ sm)
    (hA : get_signer_from_secp_instruction d = bot.eth_address)
    (hB : get_signer_from_secp_instruction d ∈ signers) :
    ∀ st', verify_transfer_step bot om sm signers st d ≠ .ok st' := by
  intro st' h
  have hB2 : bot.eth_address ∈ signers := hA ▸ hB
  by_cases hm : instruction_message d = om
  · by_cases hop : bot.operator ∈ st.operators
    · rw [step_oracle_op_coll bot om sm signers st d hA hm hop] at h
      exact Except.noConfusion h
    · rcases hl : cmLookup st.checkmap bot.eth_address with _ | b
      · simp [verify_transfer_step, hA, hB2, validate_eth_signature, hm, hop,
          check_signer, hl] at h
      · cases b <;>
          simp [verify_transfer_step, hA, hB2, validate_eth_signature, hm, hop,
            check_signer, hl, hne] at h
  · rw [step_oracle_bad_msg bot om sm signers st d hA hm] at h
    exact Except.noConfusion h

theorem step_ok_inv (bot : SenderAccount) (om sm : List Nat)
    (signers : List EthereumAddress) (st st' : TransferState) (d : List Nat)
    (hne : om ≠ sm)
    (h : verify_transfer_step bot om sm signers st d = .ok st') :
    (get_signer_from_secp_instruction d ≠ bot.eth_address ∧
     get_signer_from_secp_instruction d ∉ signers ∧ st' = st) ∨
    (get_signer_from_secp_instruction d = bot.eth_address ∧
     get_signer_from_secp_instruction d ∉ signers ∧
     instruction_message d = om ∧ bot.operator ∉ st.operators ∧
     st' = ⟨st.successful_verifications + 1, st.checkmap,
            st.operators ++ [bot.operator]⟩) ∨
    (get_signer_from_secp_instruction d ≠ bot.eth_address ∧
     get_signer_from_secp_instruction d ∈ signers ∧
     cmLookup st.checkmap (get_signer_from_secp_instruction d) = some false ∧
     instruction_message d = sm ∧
     st' = ⟨st.successful_verifications + 1,
            cmSet st.checkmap (get_signer_from_secp_instruction d) true,
            st.operators⟩) := by
  by_cases hA : get_signer_from_secp_instruction d = bot.eth_address
  · by_cases hB : get_signer_from_secp_instruction d ∈ signers
    · exact absurd h (step_oracle_and_sender_not_ok bot om sm signers st d hne hA hB st')
    · by_cases hm : instruction_message d = om
      · by_cases hop : bot.operator ∈ st.operators
        · rw [step_oracle_op_coll bot om sm signers st d hA hm hop] at h
          exact Except.noConfusion h
        · rw [step_oracle_ok bot om sm signers st d hA hB hm hop] at h
          exact Or.inr (Or.inl ⟨hA, hB, hm, hop, (Except.ok.inj h).symm⟩)
      · rw [step_oracle_bad_msg bot om sm signers st d hA hm] at h
        exact Except.noConfusion h
  · by_cases hB : get_signer_from_secp_instruction d ∈ signers
    · rcases hl : cmLookup st.checkmap (get_signer_from_secp_instruction d) with _ | b
      · rw [step_sender_wrong bot om sm signers st d hA hB hl] at h
        exact Except.noConfusion h
      · cases b
        · by_cases hm : instruction_message d = sm
          · rw [step_sender_ok bot om sm signers st d hA hB hl hm] at h
            exact Or.inr (Or.inr ⟨hA, hB, rfl, hm, (Except.ok.inj h).symm⟩)
          · rw [step_sender_bad_msg bot om sm signers st d hA hB hl hm] at h
            exact Except.noConfusion h
        · rw [step_sender_collision bot om sm signers st d hA hB hl] at h
          exact Except.noConfusion h
    · rw [step_ignore bot om sm signers st d hA hB] at h
      exact Or.inl ⟨hA, hB, (Except.ok.inj h).symm⟩

theorem StateLe.refl (s : TransferState) : StateLe s s :=
  ⟨fun _ h => h, fun _ => Iff.rfl, fun _ h => h⟩

theorem step_grow (bot : SenderAccount) (om sm : List Nat)
    (signers : List EthereumAddress) (st st' : TransferState) (d : List Nat)
    (hne : om ≠ sm)
    (h : verify_transfer_step bot om sm signers st d = .ok st') :
    StateLe st st' := by
  rcases step_ok_inv bot om sm signers st st' d hne h with
    ⟨_, _, rfl⟩ | ⟨_, _, _, _, rfl⟩ | ⟨_, _, hl, _, rfl⟩
  · exact StateLe.refl _
  · exact ⟨fun _ h => h, fun _ => Iff.rfl,
      fun o ho => List.mem_append.mpr (Or.inl ho)⟩
  · refine ⟨?_, ?_, fun _ h => h⟩
    · intro a ha
      have hne2 : get_signer_from_secp_instruction d ≠ a := by
        intro hh
        rw [hh] at hl
        rw [hl] at ha
        exact Bool.noConfusion (Option.some.inj ha)
      rw [cmLookup_cmSet_ne _ _ _ _ hne2]
      exact ha
    · intro a
      constructor
      · exact cmLookup_cmSet_none _ _ _ _
      · intro hn
        by_cases hh : get_signer_from_secp_instruction d = a
        · rw [← hh] at hn
          rw [cmLookup_cmSet_self _ _ _ (by rw [hl]; rfl)] at hn
          exact Option.noConfusion hn
        · rw [cmLookup_cmSet_ne _ _ _ _ hh] at hn
          exact hn

theorem step_err_mono (bot : SenderAccount) (om sm : List Nat)
    (signers : List EthereumAddress) (st t : TransferState) (d : List Nat)
    (e : AudiusProgramError) (hne : om ≠ sm) (hle : StateLe st t)
    (h : verify_transfer_step bot om sm signers st d = .error e) :
    ∃ e2, verify_transfer_step bot om sm signers t d = .error e2 := by
  by_cases hA : get_signer_from_secp_instruction d = bot.eth_address
  · by_cases hB : get_signer_from_secp_instruction d ∈ signers
    · rcases hres : verify_transfer_step bot om sm signers t d with _ | t'
      · exact ⟨_, rfl⟩
      · exact absurd hres
          (step_oracle_and_sender_not_ok bot om sm signers t d hne hA hB t')
    · by_cases hm : instruction_message d = om
      · by_cases hop : bot.operator ∈ st.operators
        · exact ⟨_, step_oracle_op_coll bot om sm signers t d hA hm (hle.2.2 _ hop)⟩
        · rw [step_oracle_ok bot om sm signers st d hA hB hm hop] at h
          exact Except.noConfusion h
      · exact ⟨_, step_oracle_bad_msg bot om sm signers t d hA hm⟩
  · by_cases hB : get_signer_from_secp_instruction d ∈ signers
    · rcases hl : cmLookup st.checkmap (get_signer_from_secp_instruction d) with _ | b
      · exact ⟨_, step_sender_wrong bot om sm signers t d hA hB ((hle.2.1 _).mp hl)⟩
      · cases b
        · by_cases hm : instruction_message d = sm
          · rw [step_sender_ok bot om sm signers st d hA hB hl hm] at h
            exact Except.noConfusion h
          · rcases hl2 : cmLookup t.checkmap (get_signer_from_secp_instruction d) with _ | b2
            · have := (hle.2.1 _).mpr hl2
              rw [hl] at this
              exact Option.noConfusion this
            · cases b2
              · exact ⟨_, step_sender_bad_msg bot om sm signers t d hA hB hl2 hm⟩
              · exact ⟨_, step_sender_collision bot om sm signers t d hA hB hl2⟩
        · exact ⟨_, step_sender_collision bot om sm signers t d hA hB (hle.1 _ hl)⟩
    · rw [step_ignore bot om sm signers st d hA hB] at h
      exact Except.noConfusion h

theorem cmSet_comm (m : Checkmap) (k1 k2 : EthereumAddress) (b1 b2 : Bool)
    (hne : k1 ≠ k2) :
    cmSet (cmSet m k1 b1) k2 b2 = cmSet (cmSet m k2 b2) k1 b1 := by
  induction m with
  | nil => rfl
  | cons kv rest ih =>
    obtain ⟨k0, v0⟩ := kv
    by_cases h1 : k0 = k1
    · subst h1
      have h2 : k0 ≠ k2 := fun h => hne (h ▸ rfl)
      simp [cmSet, h2, if_neg h2]
    · by_cases h2 : k0 = k2
      · subst h2
        simp [cmSet, h1, if_neg h1]
      · simp [cmSet, if_neg h1, if_neg h2, ih]

theorem step_comm (bot : SenderAccount) (om sm : List Nat)
    (signers : List EthereumAddress) (st s1 s2 : TransferState) (x y : List Nat)
    (hne : om ≠ sm)
    (hx : verify_transfer_step bot om sm signers st x = .ok s1)
    (hy : verify_transfer_step bot om sm signers s1 y = .ok s2) :
    ∃ t1, verify_transfer_step bot om sm signers st y = .ok t1 ∧
      verify_transfer_step bot om sm signers t1 x = .ok s2 := by
  rcases step_ok_inv bot om sm signers st s1 x hne hx with
    ⟨hxA, hxB, hs1⟩ | ⟨hxA, hxB, hxm, hxop, hs1⟩ | ⟨hxA, hxB, hxl, hxm, hs1⟩
  · -- x is ignored: s1 = st
    subst hs1
    exact ⟨s2, hy, by rw [step_ignore bot om sm signers s2 x hxA hxB]⟩
  · -- x is the oracle proof
    subst hs1
    rcases step_ok_inv bot om sm signers _ s2 y hne hy with
      ⟨hyA, hyB, hs2⟩ | ⟨hyA, hyB, hym, hyop, hs2⟩ | ⟨hyA, hyB, hyl, hym, hs2⟩
    · -- y ignored
      subst hs2
      refine ⟨st, step_ignore bot om sm signers st y hyA hyB, ?_⟩
      rw [step_oracle_ok bot om sm signers st x hxA hxB hxm hxop]
    · -- y also oracle: impossible, operator already inserted
      exfalso
      exact hyop (List.mem_append.mpr (Or.inr (List.mem_singleton.mpr rfl)))
    · -- y is a sender proof
      subst hs2
      refine ⟨⟨st.successful_verifications + 1,
        cmSet st.checkmap (get_signer_from_secp_instruction y) true,
        st.operators⟩,
        step_sender_ok bot om sm signers st y hyA hyB hyl hym, ?_⟩
      rw [step_oracle_ok bot om sm signers _ x hxA hxB hxm (by simpa using hxop)]
  · -- x is a sender proof
    subst hs1
    rcases step_ok_inv bot om sm signers _ s2 y hne hy with
      ⟨hyA, hyB, hs2⟩ | ⟨hyA, hyB, hym, hyop, hs2⟩ | ⟨hyA, hyB, hyl, hym, hs2⟩
    · -- y ignored
      subst hs2
      refine ⟨st, step_ignore bot om sm signers st y hyA hyB, ?_⟩
      rw [step_sender_ok bot om sm signers st x hxA hxB hxl hxm]
    · -- y is the oracle proof
      subst hs2
      refine ⟨⟨st.successful_verifications + 1, st.checkmap,
        st.operators ++ [bot.operator]⟩,
        step_oracle_ok bot om sm signers st y hyA hyB hym (by simpa using hyop), ?_⟩
      rw [step_sender_ok bot om sm signers _ x hxA hxB (by simpa using hxl) hxm]
    · -- y is a sender proof as well; the two identities must differ
      have hxy : get_signer_from_secp_instruction x ≠
          get_signer_from_secp_instruction y := by
        intro hh
        rw [← hh] at hyl
        rw [cmLookup_cmSet_self _ _ _ (by rw [hxl]; rfl)] at hyl
        exact Bool.noConfusion (Option.some.inj hyl)
      have hyl0 : cmLookup st.checkmap (get_signer_from_secp_instruction y) =
          some false := by
        rw [cmLookup_cmSet_ne _ _ _ _ hxy] at hyl
        exact hyl
      subst hs2
      refine ⟨⟨st.successful_verifications + 1,
        cmSet st.checkmap (get_signer_from_secp_instruction y) true,
        st.operators⟩,
        step_sender_ok bot om sm signers st y hyA hyB hyl0 hym, ?_⟩
      rw [step_sender_ok bot om sm signers _ x hxA hxB
        (by
          rw [cmLookup_cmSet_ne _ _ _ _ (fun h => hxy h.symm)]
          exact hxl) hxm]
      simp [cmSet_comm st.checkmap _ _ true true hxy]

theorem resultAgrees_refl (a : Except AudiusProgramError TransferState) :
    resultAgrees a a := by
  cases a <;> simp [resultAgrees]

theorem resultAgrees_trans (a b c : Except AudiusProgramError TransferState)
    (h1 : resultAgrees a b) (h2 : resultAgrees b c) : resultAgrees a c := by
  cases a <;> cases b <;> cases c <;> simp_all [resultAgrees]

theorem step2_agrees (bot : SenderAccount) (om sm : List Nat)
    (signers : List EthereumAddress) (st : TransferState) (x y : List Nat)
    (hne : om ≠ sm) :
    resultAgrees
      (match verify_transfer_step bot om sm signers st x with
       | .error e => .error e
       | .ok s1 => verify_transfer_step bot om sm signers s1 y)
      (match verify_transfer_step bot om sm signers st y with
       | .error e => .error e
       | .ok t1 => verify_transfer_step bot om sm signers t1 x) := by
  rcases hx : verify_transfer_step bot om sm signers st x with ex | s1 <;>
    rcases hy : verify_transfer_step bot om sm signers st y with ey | t1
  · simp [hx, hy, resultAgrees]
  · rcases hx2 : verify_transfer_step bot om sm signers t1 x with ex2 | u
    · simp [hx, hy, hx2, resultAgrees]
    · exfalso
      have hle := step_grow bot om sm signers st t1 y hne hy
      rcases step_err_mono bot om sm signers st t1 x ex hne hle hx with ⟨e2, he2⟩
      rw [he2] at hx2
      exact Except.noConfusion hx2
  · rcases hy1 : verify_transfer_step bot om sm signers s1 y with ey1 | s2
    · simp [hx, hy, hy1, resultAgrees]
    · exfalso
      rcases step_comm bot om sm signers st s1 s2 x y hne hx hy1 with ⟨t1, h1, h2⟩
      rw [hy] at h1
      exact Except.noConfusion h1
  · rcases hy1 : verify_transfer_step bot om sm signers s1 y with ey1 | s2
    · rcases hx2 : verify_transfer_step bot om sm signers t1 x with ex2 | u
      · simp [hx, hy, hy1, hx2, resultAgrees]
      · exfalso
        rcases step_comm bot om sm signers st t1 u y x hne hy hx2 with ⟨s1', h1, h2⟩
        rw [hx] at h1
        rw [← Except.ok.inj h1] at h2
        rw [hy1] at h2
        exact Except.noConfusion h2
    · rcases step_comm bot om sm signers st s1 s2 x y hne hx hy1 with ⟨t1', h1, h2⟩
      rw [hy] at h1
      rw [← Except.ok.inj h1] at h2
      simp [hx, hy, hy1, h2, resultAgrees]

theorem loop_two_cons (bot : SenderAccount) (om sm : List Nat)
    (signers : List EthereumAddress) (st : TransferState) (a b : List Nat)
    (l : List (List Nat)) :
    verify_transfer_loop bot om sm signers st (a :: b :: l) =
      bindLoop bot om sm signers
        (match verify_transfer_step bot om sm signers st a with
         | .error e => (.error e : Except AudiusProgramError TransferState)
         | .ok s1 => verify_transfer_step bot om sm signers s1 b) l := by
  rcases ha : verify_transfer_step bot om sm signers st a with ea | s1
  · simp [verify_transfer_loop, ha, bindLoop]
  · simp [verify_transfer_loop, ha, bindLoop]

theorem loop_agrees_congr (bot : SenderAccount) (om sm : List Nat)
    (signers : List EthereumAddress) (r1 r2 : Except AudiusProgramError TransferState)
    (l : List (List Nat)) (h : resultAgrees r1 r2) :
    resultAgrees (bindLoop bot om sm signers r1 l) (bindLoop bot om sm signers r2 l) := by
  cases r1 with
  | error e1 =>
    cases r2 with
    | error e2 => simp [resultAgrees, bindLoop]
    | ok s2 => exact h.elim
  | ok s1 =>
    cases r2 with
    | error e2 => exact h.elim
    | ok s2 =>
      have hs : s1 = s2 := h
      subst hs
      exact resultAgrees_refl _

theorem loop_perm (bot : SenderAccount) (om sm : List Nat)
    (signers : List EthereumAddress) {l1 l2 : List (List Nat)}
    (hne : om ≠ sm) (hp : l1.Perm l2) :
    ∀ st, resultAgrees (verify_transfer_loop bot om sm signers st l1)
      (verify_transfer_loop bot om sm signers st l2) := by
  induction hp with
  | nil => exact fun _ => resultAgrees_refl _
  | cons x _ ih =>
    intro st
    rcases hx : verify_transfer_step bot om sm signers st x with e | s1
    · simp [verify_transfer_loop, hx, resultAgrees]
    · simpa [verify_transfer_loop, hx] using ih s1
  | swap x y l =>
    intro st
    rw [loop_two_cons, loop_two_cons]
    exact loop_agrees_congr bot om sm signers _ _ l
      (step2_agrees bot om sm signers st y x hne)
  | trans _ _ ih1 ih2 =>
    intro st
    exact resultAgrees_trans _ _ _ (ih1 st) (ih2 st)

/-- C9: for every transfer-path verification batch and every permutation
of the proofs in the batch, the accept/reject outcome of
`build_verify_secp_transfer` is unchanged (including the transient
duplicate-identity check). -/
theorem C9_transfer_batch_order_irrelevant (bot : SenderAccount) (t : Transfer)
    (signers operators : List EthereumAddress)
    (instrs instrs2 : List (List Nat)) (hp : instrs.Perm instrs2) :
    (build_verify_secp_transfer bot t instrs signers operators = .ok () ↔
     build_verify_secp_transfer bot t instrs2 signers operators = .ok ()) := by
  have hne := bot_oracle_message_ne_senders_message t bot.eth_address
  have hag := loop_perm bot (bot_oracle_message t)
    (senders_message t bot.eth_address) signers hne hp
    ⟨0, vec_into_checkmap signers, operators⟩
  rcases h1 : verify_transfer_loop bot (bot_oracle_message t)
      (senders_message t bot.eth_address) signers
      ⟨0, vec_into_checkmap signers, operators⟩ instrs with e1 | f1 <;>
    rcases h2 : verify_transfer_loop bot (bot_oracle_message t)
      (senders_message t bot.eth_address) signers
      ⟨0, vec_into_checkmap signers, operators⟩ instrs2 with e2 | f2
  · simp [build_verify_secp_transfer, h1, h2]
  · rw [h1, h2] at hag
    exact hag.elim
  · rw [h1, h2] at hag
    exact hag.elim
  · rw [h1, h2] at hag
    have hf : f1 = f2 := hag
    subst hf
    simp [build_verify_secp_transfer, h1, h2]

/-- C1: whenever the transfer-verification loop completes, the verifier
accepts exactly when the success counter equals the number of expected
senders plus one, and any other final count is rejected with
`SignatureVerificationFailed`; an empty expected-sender set with a single
valid oracle signature passes (target 1); supplying one fewer correct
signature than expected (one of two senders missing) fails. -/
theorem C1_success_counter_equality (bot : SenderAccount) (t : Transfer)
    (signers operators : List EthereumAddress) (instrs : List (List Nat))
    (fin : TransferState)
    (h : verify_transfer_loop bot (bot_oracle_message t)
        (senders_message t bot.eth_address) signers
        ⟨0, vec_into_checkmap signers, operators⟩ instrs = .ok fin) :
    (build_verify_secp_transfer bot t instrs signers operators = .ok () ↔
      fin.successful_verifications = signers.length + 1) ∧
    (fin.successful_verifications ≠ signers.length + 1 →
      build_verify_secp_transfer bot t instrs signers operators =
        .error .SignatureVerificationFailed) ∧
    (∀ (bot2 : SenderAccount) (t2 : Transfer) (ops2 : List EthereumAddress),
      bot2.eth_address.length = 20 → bot2.operator ∉ ops2 →
      build_verify_secp_transfer bot2 t2
        [secp_data bot2.eth_address (bot_oracle_message t2)] [] ops2 = .ok ()) ∧
    (build_verify_secp_transfer exBot exTransfer
      [secp_data exSenderA (senders_message exTransfer exOracleEth),
       secp_data exOracleEth (bot_oracle_message exTransfer)]
      [exSenderA, exSenderB] [] = .error .SignatureVerificationFailed) := by
  refine ⟨?_, ?_, ?_, by decide⟩
  · simp only [build_verify_secp_transfer, h]
    by_cases hc : fin.successful_verifications = signers.length + 1
    · simp [hc]
    · simp [hc]
  · intro hc
    simp [build_verify_secp_transfer, h, hc]
  · intro bot2 t2 ops2 hlen hop
    have hA := get_signer_secp_data bot2.eth_address (bot_oracle_message t2) hlen
    have hm := instruction_message_secp_data bot2.eth_address
      (bot_oracle_message t2) hlen
    have hstep := step_oracle_ok bot2 (bot_oracle_message t2)
      (senders_message t2 bot2.eth_address) []
      ⟨0, vec_into_checkmap [], ops2⟩ _ hA (by simp) hm (by simpa using hop)
    simp [build_verify_secp_transfer, verify_transfer_loop, hstep]

/-- C2: the senders message extends the bot-oracle message by exactly the
underscore and oracle-identity suffix; a proof carrying the senders
message under the oracle identity is rejected with
`SignatureVerificationFailed`, and a proof carrying the bot-oracle
message under an expected-sender identity is likewise rejected. -/
theorem C2_message_separation (t : Transfer) (bot : SenderAccount)
    (signers ops : List EthereumAddress) (hlen : bot.eth_address.length = 20) :
    senders_message t bot.eth_address =
      bot_oracle_message t ++ [95] ++ bot.eth_address ∧
    build_verify_secp_transfer bot t
      [secp_data bot.eth_address (senders_message t bot.eth_address)]
      signers ops = .error .SignatureVerificationFailed ∧
    (∀ s, s ∈ signers → s ≠ bot.eth_address → s.length = 20 →
      build_verify_secp_transfer bot t
        [secp_data s (bot_oracle_message t)] signers ops =
        .error .SignatureVerificationFailed) := by
  refine ⟨?_, ?_, ?_⟩
  · simp [senders_message, bot_oracle_message, List.append_assoc]
  · have hA := get_signer_secp_data bot.eth_address
      (senders_message t bot.eth_address) hlen
    have hm := instruction_message_secp_data bot.eth_address
      (senders_message t bot.eth_address) hlen
    have hmne : instruction_message
        (secp_data bot.eth_address (senders_message t bot.eth_address)) ≠
        bot_oracle_message t := by
      rw [hm]
      exact fun hh => bot_oracle_message_ne_senders_message t bot.eth_address hh.symm
    have hstep := step_oracle_bad_msg bot (bot_oracle_message t)
      (senders_message t bot.eth_address) signers
      ⟨0, vec_into_checkmap signers, ops⟩ _ hA hmne
    simp [build_verify_secp_transfer, verify_transfer_loop, hstep]
  · intro s hs hsb hslen
    have hA : get_signer_from_secp_instruction
        (secp_data s (bot_oracle_message t)) ≠ bot.eth_address := by
      rw [get_signer_secp_data s (bot_oracle_message t) hslen]
      exact hsb
    have hB : get_signer_from_secp_instruction
        (secp_data s (bot_oracle_message t)) ∈ signers := by
      rw [get_signer_secp_data s (bot_oracle_message t) hslen]
      exact hs
    have hl : cmLookup (vec_into_checkmap signers)
        (get_signer_from_secp_instruction (secp_data s (bot_oracle_message t))) =
        some false := by
      rw [cmLookup_vec_into_checkmap, if_pos hB]
    have hmne : instruction_message (secp_data s (bot_oracle_message t)) ≠
        senders_message t bot.eth_address := by
      rw [instruction_message_secp_data s (bot_oracle_message t) hslen]
      exact bot_oracle_message_ne_senders_message t bot.eth_address
    have hstep := step_sender_bad_msg bot (bot_oracle_message t)
      (senders_message t bot.eth_address) signers
      ⟨0, vec_into_checkmap signers, ops⟩ _ hA hB hl hmne
    simp [build_verify_secp_transfer, verify_transfer_loop, hstep]

/-- C3: a content-valid oracle proof whose operator is already in the
seeded collision set fails the transfer batch with `OperatorCollision`;
and two sender records sharing one operator already fail with
`OperatorCollision` while `get_eth_addresses` assembles the
expected-signer set. -/
theorem C3_operator_collision (bot : SenderAccount) (t : Transfer)
    (signers ops : List EthereumAddress) (rest : List (List Nat))
    (hlen : bot.eth_address.length = 20) (hop : bot.operator ∈ ops) :
    build_verify_secp_transfer bot t
      (secp_data bot.eth_address (bot_oracle_message t) :: rest)
      signers ops = .error .OperatorCollision ∧
    (∀ (pid : Nat) (derive : EthereumAddress → Nat) (s1 s2 : AccountInfo),
      s1.data.is_init = true → s2.data.is_init = true →
      s1.owner = pid → s2.owner = pid →
      derive s1.data.eth_address = s1.key → derive s2.data.eth_address = s2.key →
      s1.data.eth_address ≠ s2.data.eth_address →
      s2.data.operator = s1.data.operator →
      get_eth_addresses pid derive [s1, s2] =
        .error (.Custom .OperatorCollision)) := by
  constructor
  · have hA := get_signer_secp_data bot.eth_address (bot_oracle_message t) hlen
    have hm := instruction_message_secp_data bot.eth_address
      (bot_oracle_message t) hlen
    have hstep := step_oracle_op_coll bot (bot_oracle_message t)
      (senders_message t bot.eth_address) signers
      ⟨0, vec_into_checkmap signers, ops⟩ _ hA hm (by simpa using hop)
    simp [build_verify_secp_transfer, verify_transfer_loop, hstep]
  · intro pid derive s1 s2 h1 h2 ho1 ho2 hd1 hd2 hne hopeq
    have hne2 : s2.data.eth_address ∉ [s1.data.eth_address] := by
      simp
      exact fun hh => hne hh.symm
    simp [get_eth_addresses, get_eth_addresses_loop, h1, h2, ho1, ho2, hd1, hd2,
      hne2, hopeq]
    exact fun hh => hne hh.symm

/-- C4: an expected sender identity appearing on two proofs in one
transfer batch fails with `SignCollission`, whatever the second payload
is (in particular also when both payloads are the valid senders
message). -/
theorem C4_double_signing_collision (bot : SenderAccount) (t : Transfer)
    (signers ops : List EthereumAddress) (s : EthereumAddress) (p2 : List Nat)
    (hs : s ∈ signers) (hsb : s ≠ bot.eth_address) (hlen : s.length = 20) :
    build_verify_secp_transfer bot t
      [secp_data s (senders_message t bot.eth_address), secp_data s p2]
      signers ops = .error .SignCollission := by
  have hgs := get_signer_secp_data s (senders_message t bot.eth_address) hlen
  have hgs2 := get_signer_secp_data s p2 hlen
  have hA1 : get_signer_from_secp_instruction
      (secp_data s (senders_message t bot.eth_address)) ≠ bot.eth_address := by
    rw [hgs]; exact hsb
  have hB1 : get_signer_from_secp_instruction
      (secp_data s (senders_message t bot.eth_address)) ∈ signers := by
    rw [hgs]; exact hs
  have hl1 : cmLookup (vec_into_checkmap signers)
      (get_signer_from_secp_instruction
        (secp_data s (senders_message t bot.eth_address))) = some false := by
    rw [cmLookup_vec_into_checkmap, if_pos hB1]
  have hm1 := instruction_message_secp_data s
    (senders_message t bot.eth_address) hlen
  have hstep1 := step_sender_ok bot (bot_oracle_message t)
    (senders_message t bot.eth_address) signers
    ⟨0, vec_into_checkmap signers, ops⟩ _ hA1 hB1 hl1 hm1
  have hA2 : get_signer_from_secp_instruction (secp_data s p2) ≠
      bot.eth_address := by
    rw [hgs2]; exact hsb
  have hB2 : get_signer_from_secp_instruction (secp_data s p2) ∈ signers := by
    rw [hgs2]; exact hs
  have hl2 : cmLookup
      (cmSet (vec_into_checkmap signers)
        (get_signer_from_secp_instruction
          (secp_data s (senders_message t bot.eth_address))) true)
      (get_signer_from_secp_instruction (secp_data s p2)) = some true := by
    rw [hgs, hgs2]
    exact cmLookup_cmSet_self _ _ _ (by rw [cmLookup_vec_into_checkmap, if_pos hs]; rfl)
  have hstep2 := step_sender_collision bot (bot_oracle_message t)
    (senders_message t bot.eth_address) signers
    ⟨0 + 1,
     cmSet (vec_into_checkmap signers)
       (get_signer_from_secp_instruction
         (secp_data s (senders_message t bot.eth_address))) true,
     ops⟩ _ hA2 hB2 (by simpa using hl2)
  simp [build_verify_secp_transfer, verify_transfer_loop, hstep1, hstep2]

theorem add_loop_preserves_none (exp : List Nat) (cm cm1 : Checkmap)
    (xs : List (List Nat)) (a : EthereumAddress)
    (h : verify_add_sender_loop exp cm xs = .ok cm1)
    (hn : cmLookup cm a = none) : cmLookup cm1 a = none := by
  induction xs generalizing cm with
  | nil =>
    rw [← Except.ok.inj h]
    exact hn
  | cons d ds ih =>
    unfold verify_add_sender_loop at h
    rcases hl : cmLookup cm (get_signer_from_secp_instruction d) with _ | b
    · simp [check_signer, hl] at h
    · cases b
      · by_cases hv : instruction_message d = exp
        · simp only [check_signer, hl, validate_eth_signature, hv] at h
          simp at h
          exact ih _ h (cmLookup_cmSet_none cm _ true a hn)
        · simp [check_signer, hl, validate_eth_signature, hv] at h
      · simp [check_signer, hl] at h

theorem add_loop_ok_iff (exp : List Nat) (signers : List EthereumAddress)
    (instrs : List (List Nat)) :
    ∀ (T : List EthereumAddress) (cm : Checkmap),
    (∀ a, cmLookup cm a =
      if a ∈ signers then some (decide (a ∈ T)) else none) →
    ((∃ cm1, verify_add_sender_loop exp cm instrs = .ok cm1) ↔
      ((∀ d ∈ instrs, get_signer_from_secp_instruction d ∈ signers ∧
          instruction_message d = exp ∧
          get_signer_from_secp_instruction d ∉ T) ∧
        (instrs.map get_signer_from_secp_instruction).Nodup)) := by
  induction instrs with
  | nil =>
    intro T cm hrep
    simp [verify_add_sender_loop]
  | cons d ds ih =>
    intro T cm hrep
    by_cases hs : get_signer_from_secp_instruction d ∈ signers
    · by_cases ht : get_signer_from_secp_instruction d ∈ T
      · have hl : cmLookup cm (get_signer_from_secp_instruction d) = some true := by
          rw [hrep, if_pos hs, decide_eq_true ht]
        constructor
        · rintro ⟨cm1, h⟩
          simp [verify_add_sender_loop, check_signer, hl] at h
        · rintro ⟨hall, _⟩
          exact absurd ht (hall d (List.mem_cons_self d ds)).2.2
      · have hl : cmLookup cm (get_signer_from_secp_instruction d) = some false := by
          rw [hrep, if_pos hs, decide_eq_false ht]
        by_cases hm : instruction_message d = exp
        · have hrep2 : ∀ a, cmLookup
              (cmSet cm (get_signer_from_secp_instruction d) true) a =
              if a ∈ signers then
                some (decide (a ∈ get_signer_from_secp_instruction d :: T))
              else none := by
            intro a
            by_cases ha : get_signer_from_secp_instruction d = a
            · rw [← ha, cmLookup_cmSet_self _ _ _ (by rw [hl]; rfl), if_pos hs]
              simp
            · rw [cmLookup_cmSet_ne _ _ _ _ ha, hrep]
              by_cases has : a ∈ signers
              · rw [if_pos has, if_pos has]
                have : (a ∈ get_signer_from_secp_instruction d :: T) ↔ a ∈ T := by
                  simp [List.mem_cons]
                  exact fun hh => absurd hh.symm ha
                simp [this]
              · rw [if_neg has, if_neg has]
          have hloop : ∀ cm1,
              verify_add_sender_loop exp cm (d :: ds) = .ok cm1 ↔
              verify_add_sender_loop exp
                (cmSet cm (get_signer_from_secp_instruction d) true) ds = .ok cm1 := by
            intro cm1
            simp [verify_add_sender_loop, check_signer, hl,
              validate_eth_signature, hm]
          rw [show (∃ cm1, verify_add_sender_loop exp cm (d :: ds) = .ok cm1) ↔
              (∃ cm1, verify_add_sender_loop exp
                (cmSet cm (get_signer_from_secp_instruction d) true) ds = .ok cm1) by
            exact exists_congr hloop]
          rw [ih (get_signer_from_secp_instruction d :: T) _ hrep2]
          constructor
          · rintro ⟨hall, hnd⟩
            refine ⟨?_, ?_⟩
            · intro d2 hd2
              rcases List.mem_cons.mp hd2 with hd2 | hd2
              · subst hd2
                exact ⟨hs, hm, ht⟩
              · rcases hall d2 hd2 with ⟨ha1, ha2, ha3⟩
                exact ⟨ha1, ha2, fun hh =>
                  ha3 (List.mem_cons.mpr (Or.inr hh))⟩
            · refine List.nodup_cons.mpr ⟨?_, hnd⟩
              intro hmem
              rcases List.mem_map.mp hmem with ⟨d2, hd2, hgd2⟩
              exact (hall d2 hd2).2.2 (hgd2 ▸ List.mem_cons_self _ _)
          · rintro ⟨hall, hnd⟩
            have hnd2 := List.nodup_cons.mp hnd
            refine ⟨?_, hnd2.2⟩
            intro d2 hd2
            rcases hall d2 (List.mem_cons.mpr (Or.inr hd2)) with ⟨ha1, ha2, ha3⟩
            refine ⟨ha1, ha2, ?_⟩
            intro hh
            rcases List.mem_cons.mp hh with hh | hh
            · exact hnd2.1 (hh ▸ List.mem_map.mpr ⟨d2, hd2, rfl⟩)
            · exact ha3 hh
        · constructor
          · rintro ⟨cm1, h⟩
            simp [verify_add_sender_loop, check_signer, hl,
              validate_eth_signature, hm] at h
          · rintro ⟨hall, _⟩
            exact absurd (hall d (List.mem_cons_self d ds)).2.1 hm
    · have hl : cmLookup cm (get_signer_from_secp_instruction d) = none := by
        rw [hrep, if_neg hs]
      constructor
      · rintro ⟨cm1, h⟩
        simp [verify_add_sender_loop, check_signer, hl] at h
      · rintro ⟨hall, _⟩
        exact absurd (hall d (List.mem_cons_self d ds)).1 hs

/-- C6 (amended): the add-sender verifier accepts exactly when every
supplied proof bears a declared signer identity, payloads all equal
`reward_manager_key || new_sender`, and no identity appears on two
proofs; it does not itself require every declared signer to have signed,
and the operator-set argument is ignored (no oracle step, no
operator-collision step). -/
theorem C6_add_sender_characterization (rm : List Nat) (ns : EthereumAddress)
    (instrs : List (List Nat)) (signers ops : List EthereumAddress) :
    (build_verify_secp_add_sender rm ns instrs signers ops = .ok () ↔
      ((∀ d ∈ instrs, get_signer_from_secp_instruction d ∈ signers ∧
          instruction_message d = rm ++ ns) ∧
        (instrs.map get_signer_from_secp_instruction).Nodup)) ∧
    (∀ ops2, build_verify_secp_add_sender rm ns instrs signers ops =
      build_verify_secp_add_sender rm ns instrs signers ops2) := by
  have hiff := add_loop_ok_iff (rm ++ ns) signers instrs [] (vec_into_checkmap signers)
    (by
      intro a
      rw [cmLookup_vec_into_checkmap]
      simp)
  constructor
  · constructor
    · intro h
      have hex : ∃ cm1, verify_add_sender_loop (rm ++ ns)
          (vec_into_checkmap signers) instrs = .ok cm1 := by
        rcases hr : verify_add_sender_loop (rm ++ ns)
            (vec_into_checkmap signers) instrs with e | cm1
        · simp [build_verify_secp_add_sender, hr] at h
        · exact ⟨cm1, rfl⟩
      have h2 := hiff.mp hex
      constructor
      · intro d hd
        exact ⟨(h2.1 d hd).1, (h2.1 d hd).2.1⟩
      · exact h2.2
    · intro h
      have h2 : ∃ cm1, verify_add_sender_loop (rm ++ ns)
          (vec_into_checkmap signers) instrs = .ok cm1 := by
        apply hiff.mpr
        refine ⟨?_, h.2⟩
        intro d hd
        exact ⟨(h.1 d hd).1, (h.1 d hd).2, by simp⟩
      rcases h2 with ⟨cm1, hr⟩
      simp [build_verify_secp_add_sender, hr]
  · intro ops2
    rfl

/-- C6 counterexample: with one declared signer and an empty proof batch
the add-sender verifier accepts, even though that signer produced no
signature at all — contradicting `accepts exactly when each identity in S
produced a valid signature`. -/
theorem C6_counterexample :
    build_verify_secp_add_sender (List.replicate 32 9) exSenderA []
      [exSenderB] [] = .ok () ∧
    ¬ (∀ s ∈ [exSenderB], ∃ d ∈ ([] : List (List Nat)),
        get_signer_from_secp_instruction d = s ∧
        instruction_message d = List.replicate 32 9 ++ exSenderA) := by
  constructor
  · rfl
  · simp

/-- C7: a transfer-batch proof whose identity is neither the oracle nor
an expected sender leaves the batch outcome exactly as if the proof were
absent; on the add-sender path a proof with an undeclared identity fails
the attempt with `WrongSigner`. -/
theorem C7_unknown_identities :
    (∀ (bot : SenderAccount) (t : Transfer) (signers ops : List EthereumAddress)
        (xs ys : List (List Nat)) (d : List Nat),
      get_signer_from_secp_instruction d ≠ bot.eth_address →
      get_signer_from_secp_instruction d ∉ signers →
      build_verify_secp_transfer bot t (xs ++ d :: ys) signers ops =
        build_verify_secp_transfer bot t (xs ++ ys) signers ops) ∧
    (∀ (rm : List Nat) (ns : EthereumAddress) (signers ops : List EthereumAddress)
        (xs ys : List (List Nat)) (d : List Nat) (cm1 : Checkmap),
      get_signer_from_secp_instruction d ∉ signers →
      verify_add_sender_loop (rm ++ ns) (vec_into_checkmap signers) xs = .ok cm1 →
      build_verify_secp_add_sender rm ns (xs ++ d :: ys) signers ops =
        .error .WrongSigner) := by
  constructor
  · intro bot t signers ops xs ys d h1 h2
    unfold build_verify_secp_transfer
    rw [verify_transfer_loop_append, verify_transfer_loop_append]
    rcases hx : verify_transfer_loop bot (bot_oracle_message t)
        (senders_message t bot.eth_address) signers
        ⟨0, vec_into_checkmap signers, ops⟩ xs with e | st1
    · simp
    · have hi := step_ignore bot (bot_oracle_message t)
        (senders_message t bot.eth_address) signers st1 d h1 h2
      simp [verify_transfer_loop, hi]
  · intro rm ns signers ops xs ys d cm1 h1 h2
    have hn : cmLookup cm1 (get_signer_from_secp_instruction d) = none :=
      add_loop_preserves_none (rm ++ ns) _ cm1 xs _ h2
        (by rw [cmLookup_vec_into_checkmap, if_neg h1])
    unfold build_verify_secp_add_sender
    rw [verify_add_sender_loop_append, h2]
    simp [verify_add_sender_loop, check_signer, hn]

/-- C5 (code bug): `process_create_sender` persists the manager account
key, not the registry key, into the owning-registry field
(`SenderAccount::new(*manager_account_info.key, eth_address)`), so a
subsequent `process_delete_sender` with the very registry the sender was
created under fails its `IncorectRewardManager` check whenever the
manager key differs from the registry key; a non-manager caller still
fails with `IncorectManagerAccount`, and no operator is declared or
stored anywhere on this path. -/
theorem C5_create_sender_stores_manager_key :
    Src.process_create_sender (fun e => e.headD 0) (List.replicate 20 5) 1
      ⟨true, 10, 2, 1⟩ 2 5 = .ok ⟨2, List.replicate 20 5⟩ ∧
    Src.process_delete_sender 1 ⟨true, 10, 2, 1⟩ 2
      ⟨2, List.replicate 20 5⟩ 700 40 =
      .error (.Custom .IncorectRewardManager) ∧
    Src.process_create_sender (fun e => e.headD 0) (List.replicate 20 5) 1
      ⟨true, 10, 2, 1⟩ 3 5 =
      .error (.Custom .IncorectManagerAccount) := by
  refine ⟨by decide, by decide, by decide⟩

/-- C8: every successful delete-sender sweeps the full sender balance to
the refund target — the new sender balance is exactly zero and the new
refunder balance is the u64 sum of the two previous balances (exact
whenever the sum does not overflow), never proportional or capped. -/
theorem C8_delete_sender_full_sweep (rmk : Nat) (rm : Src.RewardManager)
    (mk : Nat) (sender : Src.SenderAccount) (sl rl : Nat) (out : Nat × Nat)
    (h : Src.process_delete_sender rmk rm mk sender sl rl = .ok out) :
    out.1 = 0 ∧ out.2 = (rl + sl) % 2 ^ 64 ∧
    (rl + sl < 2 ^ 64 → out.2 = rl + sl) := by
  unfold Src.process_delete_sender at h
  split at h
  · exact absurd h (by simp)
  · split at h
    · exact absurd h (by simp)
    · rw [← Except.ok.inj h]
      refine ⟨rfl, rfl, fun hlt => Nat.mod_eq_of_lt hlt⟩

/-- C10: joint signature extraction (identity bytes [12, 32) and payload
bytes [97, ...)) is defined exactly for proof blobs of at least 97 bytes,
on which it returns the 20-byte identity and the signed payload; any
shorter blob makes the payload slice out of bounds (no typed error —
`none` models the Rust panic). -/
theorem C10_extraction_bounds (d : List Nat) :
    (((get_signer_checked d).isSome ∧ (message_checked d).isSome) ↔
      97 ≤ d.length) ∧
    (97 ≤ d.length →
      get_signer_checked d = some (get_signer_from_secp_instruction d) ∧
      message_checked d = some (instruction_message d) ∧
      (get_signer_from_secp_instruction d).length = 20) ∧
    (d.length < 97 → message_checked d = none) := by
  refine ⟨?_, ?_, ?_⟩
  · by_cases h2 : 97 ≤ d.length
    · have h1 : 12 + 20 ≤ d.length := by omega
      simp [get_signer_checked, message_checked, h1, h2]
    · by_cases h1 : 12 + 20 ≤ d.length <;>
        simp [get_signer_checked, message_checked, h1, h2]
  · intro h
    have h1 : 12 + 20 ≤ d.length := by omega
    refine ⟨by simp [get_signer_checked, h1, get_signer_from_secp_instruction],
      by simp [message_checked, h, instruction_message], ?_⟩
    simp only [get_signer_from_secp_instruction, List.length_take,
      List.length_drop]
    omega
  · intro h
    simp only [message_checked, ite_eq_right_iff]
    intro hh
    omega

theorem C1_witness :
    build_verify_secp_transfer exBot exTransfer [] [] [] =
      .error .SignatureVerificationFailed ∧
    build_verify_secp_transfer exBot exTransfer
      [secp_data exOracleEth (bot_oracle_message exTransfer)] [] [] = .ok () := by
  have hmain := C1_success_counter_equality exBot exTransfer [] [] []
    ⟨0, vec_into_checkmap [], []⟩ rfl
  exact ⟨hmain.2.1 (by decide), hmain.2.2.1 exBot exTransfer [] (by decide) (by decide)⟩

theorem C2_witness :
    build_verify_secp_transfer exBot exTransfer
      [secp_data exOracleEth (senders_message exTransfer exOracleEth)]
      [exSenderA] [] = .error .SignatureVerificationFailed ∧
    build_verify_secp_transfer exBot exTransfer
      [secp_data exSenderA (bot_oracle_message exTransfer)] [exSenderA] [] =
      .error .SignatureVerificationFailed := by
  have h := C2_message_separation exTransfer exBot [exSenderA] [] (by decide)
  exact ⟨h.2.1, h.2.2 exSenderA (by decide) (by decide) (by decide)⟩

theorem C3_witness :
    build_verify_secp_transfer exBot exTransfer
      [secp_data exOracleEth (bot_oracle_message exTransfer)]
      [exSenderA] [exOracleOp] = .error .OperatorCollision ∧
    get_eth_addresses 7 (fun e => if e = exSenderA then 5 else 6)
      [⟨5, 7, ⟨true, exSenderA, exOracleOp⟩⟩,
       ⟨6, 7, ⟨true, exSenderB, exOracleOp⟩⟩] =
      .error (.Custom .OperatorCollision) := by
  have h := C3_operator_collision exBot exTransfer [exSenderA] [exOracleOp] []
    (by decide) (by decide)
  exact ⟨h.1, h.2 7 (fun e => if e = exSenderA then 5 else 6)
    ⟨5, 7, ⟨true, exSenderA, exOracleOp⟩⟩ ⟨6, 7, ⟨true, exSenderB, exOracleOp⟩⟩
    (by decide) (by decide) (by decide) (by decide) (by decide) (by decide)
    (by decide) (by decide)⟩

theorem C4_witness :
    build_verify_secp_transfer exBot exTransfer
      [secp_data exSenderA (senders_message exTransfer exOracleEth),
       secp_data exSenderA (senders_message exTransfer exOracleEth)]
      [exSenderA] [] = .error .SignCollission :=
  C4_double_signing_collision exBot exTransfer [exSenderA] [] exSenderA
    (senders_message exTransfer exOracleEth) (by decide) (by decide) (by decide)

theorem C6_witness :
    build_verify_secp_add_sender (List.replicate 32 9) exSenderA
      [secp_data exSenderB (List.replicate 32 9 ++ exSenderA)]
      [exSenderB] [] = .ok () :=
  (C6_add_sender_characterization (List.replicate 32 9) exSenderA
    [secp_data exSenderB (List.replicate 32 9 ++ exSenderA)]
    [exSenderB] []).1.mpr (by decide)

theorem C7_witness :
    build_verify_secp_transfer exBot exTransfer
      [secp_data exSenderB (bot_oracle_message exTransfer)] [exSenderA] [] =
      build_verify_secp_transfer exBot exTransfer [] [exSenderA] [] ∧
    build_verify_secp_add_sender (List.replicate 32 9) exSenderA
      [secp_data exSenderB (List.replicate 32 9 ++ exSenderA)] [exSenderA] [] =
      .error .WrongSigner := by
  refine ⟨C7_unknown_identities.1 exBot exTransfer [exSenderA] [] [] []
      (secp_data exSenderB (bot_oracle_message exTransfer)) (by decide) (by decide),
    C7_unknown_identities.2 (List.replicate 32 9) exSenderA [exSenderA] [] [] []
      (secp_data exSenderB (List.replicate 32 9 ++ exSenderA))
      (vec_into_checkmap [exSenderA]) (by decide) rfl⟩

theorem C8_witness :
    ((0, 740) : Nat × Nat).1 = 0 ∧
    ((0, 740) : Nat × Nat).2 = (40 + 700) % 2 ^ 64 ∧
    (40 + 700 < 2 ^ 64 → ((0, 740) : Nat × Nat).2 = 40 + 700) :=
  C8_delete_sender_full_sweep 1 ⟨true, 10, 2, 1⟩ 2 ⟨1, List.replicate 20 5⟩
    700 40 (0, 740) (by decide)

theorem C9_witness :
    (build_verify_secp_transfer exBot exTransfer
        [secp_data exSenderA (senders_message exTransfer exOracleEth),
         secp_data exOracleEth (bot_oracle_message exTransfer)]
        [exSenderA] [] = .ok () ↔
     build_verify_secp_transfer exBot exTransfer
        [secp_data exOracleEth (bot_oracle_message exTransfer),
         secp_data exSenderA (senders_message exTransfer exOracleEth)]
        [exSenderA] [] = .ok ()) :=
  C9_transfer_batch_order_irrelevant exBot exTransfer [exSenderA] [] _ _
    (List.Perm.swap _ _ _)

theorem C10_witness :
    ((get_signer_checked (List.replicate 97 3)).isSome ∧
      (message_checked (List.replicate 97 3)).isSome ↔
      97 ≤ (List.replicate 97 3 : List Nat).length) ∧
    message_checked (List.replicate 40 3) = none :=
  ⟨(C10_extraction_bounds (List.replicate 97 3)).1,
    (C10_extraction_bounds (List.replicate 40 3)).2.2 (by decide)⟩
